import Mathlib

/-!
Shallow embedding of the LibrePCB structured-document and command layer
(files under src/libs/librepcb), with theorems settling the frozen claims.

Modelling conventions:
- C++ exceptions become `Except QtError`; a thrown exception is `.error`.
- `Q_ASSERT(cond)` is modelled as a precondition failure (`.error
  .preconditionViolation`) when `cond` is false, matching the checked-build
  abort semantics and the documented caller contract.
- Qt value types (`QString`, `QMap`, `QDateTime`) are modelled functionally:
  `QString` as `String`, `QMap<QString,QString>` as an association list with
  unique keys, `QDateTime` as `Option DateTimeFields` (UTC civil time;
  `none` is an invalid datetime, mirroring `QDateTime::isValid`).
-/

set_option autoImplicit false

namespace LibrePCB

/-! Errors. Constructors mirror the exception objects thrown by the source;
the string arguments are the values interpolated into the C++ message via
`QString::arg`, kept as structured fields. -/

/-- Error type covering the exceptions thrown by the embedded code:
`RuntimeError` (codec failures, with its message), `FileParseError` in its
three source shapes (text-invalid wrap from `getText`, attribute-not-found
and invalid-attribute wrap from `getAttribute`, node-has-childs from
`getText`), `LogicError`, and a precondition violation standing for a failed
`Q_ASSERT`. -/
inductive QtError : Type where
  | runtimeError (msg : String)
  | fileParseTextInvalid (text : String) (node : String) (msg : String)
  | attributeNotFound (attr : String) (node : String)
  | invalidAttribute (attr : String) (value : String) (node : String) (msg : String)
  | nodeHasChilds (node : String)
  | logicError
  | preconditionViolation
deriving DecidableEq

/-- Message carried by an error, as `Exception::getMsg()` returns it; only
`RuntimeError` messages are ever re-wrapped by the code in scope. -/
def QtError.getMsg : QtError → String
  | .runtimeError m => m
  | .fileParseTextInvalid _ _ m => m
  | .attributeNotFound _ _ => ""
  | .invalidAttribute _ _ _ m => m
  | .nodeHasChilds _ => ""
  | .logicError => ""
  | .preconditionViolation => ""

/-! Attribute map: functional model of `QMap<QString, QString>` (unique
keys; `insert` replaces the value of an existing key; `value` returns the
default-constructed empty string for an absent key). QMap keeps keys in
sorted order, which only affects serialization order and is irrelevant to
the lookups modelled here. -/

abbrev AttrMap := List (String × String)

/-- QMap::insert — replaces the value when the key exists, else adds it. -/
def mapInsert (k v : String) : AttrMap → AttrMap
  | [] => [(k, v)]
  | (k1, v1) :: rest => if k = k1 then (k, v) :: rest else (k1, v1) :: mapInsert k v rest

/-- QMap::contains. -/
def mapContains (k : String) : AttrMap → Bool
  | [] => false
  | (k1, _) :: rest => if k = k1 then true else mapContains k rest

/-- QMap::value — empty string when absent (default-constructed QString). -/
def mapValue (k : String) : AttrMap → String
  | [] => ""
  | (k1, v1) :: rest => if k = k1 then v1 else mapValue k rest

/-! Decimal digits: functional model of the Qt base-10 integer rendering
(`QString::number`) and parsing (`QString::toInt`, C locale, optional sign,
32-bit range check). Fuel-based recursion keeps every definition
structurally recursive so that witnesses evaluate by `decide` or `rfl`. -/

/-- Character for one decimal digit (`0` ... `9`). -/
def digitToChar (d : Nat) : Char := Char.ofNat (48 + d)

/-- Numeric value of one decimal digit character. -/
def charToDigit (c : Char) : Nat := c.toNat - 48

/-- Little-endian decimal digits of `n`; `fuel` bounds the recursion and is
sufficient whenever `n ≤ fuel + 1` at the call below. -/
def natToDigitsRevAux : Nat → Nat → List Nat
  | 0, _ => []
  | fuel + 1, n => if n < 10 then [n] else n % 10 :: natToDigitsRevAux fuel (n / 10)

/-- Little-endian decimal digits of `n`. -/
def natDigitsRev (n : Nat) : List Nat := natToDigitsRevAux (n + 1) n

/-- Canonical decimal string of a natural number. -/
def natToDecimalString (n : Nat) : String :=
  String.mk (((natDigitsRev n).map digitToChar).reverse)

/-- QString::number for `int`: base-10, leading minus sign when negative. -/
def qStringNumber (i : Int) : String :=
  if i < 0 then String.mk ('-' :: ((natDigitsRev i.natAbs).map digitToChar).reverse)
  else natToDecimalString i.natAbs

/-- Digit-sequence parser with accumulator: fails on any non-digit char. -/
def parseDigitsAux : List Char → Nat → Option Nat
  | [], acc => some acc
  | c :: cs, acc => if c.isDigit then parseDigitsAux cs (10 * acc + charToDigit c) else none

/-- Nonempty digit sequence to value. -/
def parseNatDigits (cs : List Char) : Option Nat :=
  match cs with
  | [] => none
  | _ :: _ => parseDigitsAux cs 0

/-- Optional sign followed by a nonempty digit sequence. -/
def parseIntChars : List Char → Option Int
  | [] => none
  | c :: rest =>
    if c = '-' then (parseNatDigits rest).map (fun n => -(n : Int))
    else if c = '+' then (parseNatDigits rest).map (fun n => (n : Int))
    else (parseNatDigits (c :: rest)).map (fun n => (n : Int))

/-- QString::toInt (C locale): sign and digits, failing outside the 32-bit
signed range like the Qt conversion does on overflow. -/
def qStringToInt (s : String) : Option Int :=
  match parseIntChars s.data with
  | some v => if -(2 ^ 31) ≤ v ∧ v ≤ 2 ^ 31 - 1 then some v else none
  | none => none

/-! Datetimes: `QDateTime` as UTC civil time (`Option DateTimeFields`,
`none` meaning an invalid datetime). `toUTC`/`toLocalTime` are identities
in this single-zone UTC model. The ISO-8601 rendering and parsing below
model `QDateTime::toString(Qt::ISODate)` on a UTC datetime and
`QDateTime::fromString(Qt::ISODate)` restricted to that canonical form. -/

/-- Civil datetime fields (UTC). -/
structure DateTimeFields : Type where
  year : Nat
  month : Nat
  day : Nat
  hour : Nat
  minute : Nat
  second : Nat
deriving DecidableEq

/-- Gregorian leap year. -/
def isLeapYear (y : Nat) : Bool := (y % 4 = 0 && y % 100 ≠ 0) || y % 400 = 0

/-- Number of days in a month. -/
def daysInMonth (y m : Nat) : Nat :=
  if m = 2 then (if isLeapYear y then 29 else 28)
  else if m = 4 || m = 6 || m = 9 || m = 11 then 30
  else 31

/-- Validity of civil datetime fields (`QDateTime::isValid`). -/
def isValidDateTime (d : DateTimeFields) : Bool :=
  1 ≤ d.year && d.year ≤ 9999 && 1 ≤ d.month && d.month ≤ 12 &&
  1 ≤ d.day && d.day ≤ daysInMonth d.year d.month &&
  d.hour ≤ 23 && d.minute ≤ 59 && d.second ≤ 59

/-- QDateTime in the model: `none` is an invalid datetime. -/
abbrev QDateTime := Option DateTimeFields

/-- Fixed-width four-digit decimal rendering. -/
def pad4 (n : Nat) : List Char :=
  [digitToChar (n / 1000 % 10), digitToChar (n / 100 % 10),
   digitToChar (n / 10 % 10), digitToChar (n % 10)]

/-- Fixed-width two-digit decimal rendering. -/
def pad2 (n : Nat) : List Char :=
  [digitToChar (n / 10 % 10), digitToChar (n % 10)]

/-- ISO-8601 UTC rendering, `yyyy-MM-ddTHH:mm:ssZ`; the invalid datetime
renders as the empty string (`QDateTime::toString` on an invalid value). -/
def qDateTimeToString : QDateTime → String
  | none => ""
  | some d =>
    String.mk (pad4 d.year ++ '-' :: pad2 d.month ++ '-' :: pad2 d.day ++
      'T' :: pad2 d.hour ++ ':' :: pad2 d.minute ++ ':' :: pad2 d.second ++ ['Z'])

/-- Two digit characters to a value. -/
def parseTwo (a b : Char) : Option Nat :=
  if a.isDigit && b.isDigit then some (10 * charToDigit a + charToDigit b) else none

/-- Four digit characters to a value. -/
def parseFour (a b c d : Char) : Option Nat :=
  if a.isDigit && b.isDigit && c.isDigit && d.isDigit then
    some (1000 * charToDigit a + 100 * charToDigit b + 10 * charToDigit c + charToDigit d)
  else none

/-- ISO-8601 parsing of the canonical UTC form, validating the fields
(`QDateTime::fromString(s, Qt::ISODate)` followed by `isValid`). -/
def qDateTimeFromString (s : String) : QDateTime :=
  match s.data with
  | [y1, y2, y3, y4, c1, m1, m2, c2, d1, d2, c3, h1, h2, c4, n1, n2, c5, s1, s2, c6] =>
    if c1 = '-' ∧ c2 = '-' ∧ c3 = 'T' ∧ c4 = ':' ∧ c5 = ':' ∧ c6 = 'Z' then
      match parseFour y1 y2 y3 y4, parseTwo m1 m2, parseTwo d1 d2,
            parseTwo h1 h2, parseTwo n1 n2, parseTwo s1 s2 with
      | some y, some mo, some da, some ho, some mi, some se =>
        let f : DateTimeFields := ⟨y, mo, da, ho, mi, se⟩
        if isValidDateTime f then some f else none
      | _, _, _, _, _, _ => none
    else none
  | _ => none

/-! Value codec: the `objectToString` / `stringToObject` template
specializations of `DomElement` (domelement.h lines 552-681), one codec
record per instantiated type. -/

/-- One `objectToString` / `stringToObject` specialization pair. -/
structure Codec (α : Type) : Type where
  objectToString : α → String
  stringToObject : String → Bool → α → Except QtError α

/-- stringToObject for QString (domelement.h line 602): empty with
`throwIfEmpty` fails, otherwise the string itself is returned (the default
value is unused, per the Q_ASSERT in the source). -/
def stringToObjectQString (str : String) (throwIfEmpty : Bool) : Except QtError String :=
  if str.isEmpty && throwIfEmpty then .error (.runtimeError "String is empty.")
  else .ok str

/-- stringToObject for bool (domelement.h line 612). -/
def stringToObjectBool (str : String) (throwIfEmpty : Bool) (defaultValue : Bool) :
    Except QtError Bool := do
  let s ← stringToObjectQString str throwIfEmpty
  if s = "true" then pure true
  else if s = "false" then pure false
  else if s.isEmpty then pure defaultValue
  else .error (.runtimeError "Not a valid boolean.")

/-- stringToObject for int (domelement.h line 621). -/
def stringToObjectInt (str : String) (throwIfEmpty : Bool) (defaultValue : Int) :
    Except QtError Int := do
  let s ← stringToObjectQString str throwIfEmpty
  match qStringToInt s with
  | some value => pure value
  | none => if s.isEmpty then pure defaultValue
            else .error (.runtimeError "Not a valid integer.")

/-- stringToObject for QDateTime (domelement.h line 641):
`QDateTime::fromString(s, Qt::ISODate).toLocalTime()`, where `toLocalTime`
is the identity on the instant in this UTC model. -/
def stringToObjectQDateTime (str : String) (throwIfEmpty : Bool) (defaultValue : QDateTime) :
    Except QtError QDateTime := do
  let s ← stringToObjectQString str throwIfEmpty
  match qDateTimeFromString s with
  | some obj => pure (some obj)
  | none => if s.isEmpty then pure defaultValue
            else .error (.runtimeError "Not a valid datetime.")

/-- Generic stringToObject (domelement.h line 669): delegates to the type
method `deserializeFromString`, substituting the default when the string is
empty and the deserializer failed. -/
def stringToObjectGeneric {α : Type} (deser : String → Except QtError α)
    (str : String) (throwIfEmpty : Bool) (defaultValue : α) : Except QtError α := do
  let _ ← stringToObjectQString str throwIfEmpty
  match deser str with
  | .ok v => .ok v
  | .error e => if str.isEmpty then .ok defaultValue else .error e

/-- Codec for QString. -/
def qstringCodec : Codec String :=
  ⟨fun s => s, fun str throwIfEmpty _ => stringToObjectQString str throwIfEmpty⟩

/-- Codec for bool: canonical "true" / "false". -/
def boolCodec : Codec Bool :=
  ⟨fun b => if b then "true" else "false", stringToObjectBool⟩

/-- Codec for int: `QString::number` / `QString::toInt`. -/
def intCodec : Codec Int := ⟨qStringNumber, stringToObjectInt⟩

/-- Codec for QDateTime: `obj.toUTC().toString(Qt::ISODate)` on encode. -/
def qDateTimeCodec : Codec QDateTime := ⟨qDateTimeToString, stringToObjectQDateTime⟩

/-! DomElement (domelement.h): a tree node with tag name, text, ordered
child list and attribute map. The parent / document back-references are
non-owning lookup aids and are not part of the value model. -/

/-- One element of the DOM tree (fields as in domelement.h lines 540-545). -/
inductive DomElement : Type where
  | mk (mName : String) (mText : String) (mChilds : List DomElement)
       (mAttributes : AttrMap) : DomElement

/-- Tag name accessor. -/
def DomElement.mName : DomElement → String
  | .mk n _ _ _ => n

/-- Text accessor. -/
def DomElement.mText : DomElement → String
  | .mk _ t _ _ => t

/-- Child list accessor. -/
def DomElement.mChilds : DomElement → List DomElement
  | .mk _ _ cs _ => cs

/-- Attribute map accessor. -/
def DomElement.mAttributes : DomElement → AttrMap
  | .mk _ _ _ a => a

/-- Element with the text replaced. -/
def DomElement.withText (e : DomElement) (t : String) : DomElement :=
  match e with
  | .mk n _ cs a => .mk n t cs a

/-- Element with the child list replaced. -/
def DomElement.withChilds (e : DomElement) (cs : List DomElement) : DomElement :=
  match e with
  | .mk n t _ a => .mk n t cs a

/-- Element with the attribute map replaced. -/
def DomElement.withAttributes (e : DomElement) (a : AttrMap) : DomElement :=
  match e with
  | .mk n t cs _ => .mk n t cs a

/-- Modelled from the spec: the public constructor
`DomElement(name, text = QString())` (body in domelement.cpp, which is not
under src/) creates a node with the given tag name and text and no childs
or attributes, per the header documentation and spec section 3. -/
def DomElement.new (name : String) (text : String := "") : DomElement :=
  .mk name text [] []

/-- DomElement::hasChilds. -/
def DomElement.hasChilds (e : DomElement) : Bool := !e.mChilds.isEmpty

/-- DomElement::setText (domelement.h line 154): `Q_ASSERT` that there are
no childs (modelled as a precondition failure), then store the encoded
value as the text. -/
def DomElement.setText {α : Type} (c : Codec α) (e : DomElement) (value : α) :
    Except QtError DomElement :=
  if e.mChilds.isEmpty then .ok (e.withText (c.objectToString value))
  else .error .preconditionViolation

/-- DomElement::getText (domelement.h line 175): fails when the node has
childs, otherwise decodes the text, wrapping a decode failure together with
the raw text and the node name. -/
def DomElement.getText {α : Type} (c : Codec α) (e : DomElement)
    (throwIfEmpty : Bool) (defaultValue : α) : Except QtError α :=
  if e.hasChilds then .error (.nodeHasChilds e.mName)
  else
    match c.stringToObject e.mText throwIfEmpty defaultValue with
    | .ok v => .ok v
    | .error err => .error (.fileParseTextInvalid e.mText e.mName err.getMsg)

/-- DomElement::setAttribute (domelement.h line 201). -/
def DomElement.setAttribute {α : Type} (c : Codec α) (e : DomElement)
    (name : String) (value : α) : DomElement :=
  e.withAttributes (mapInsert name (c.objectToString value) e.mAttributes)

/-- DomElement::hasAttribute. -/
def DomElement.hasAttribute (e : DomElement) (name : String) : Bool :=
  mapContains name e.mAttributes

/-- DomElement::getAttribute (domelement.h line 232): fails when the
attribute is absent from the map (regardless of `throwIfEmpty`), otherwise
decodes the stored value, wrapping a decode failure together with the
attribute name, the raw value and the node name. -/
def DomElement.getAttribute {α : Type} (c : Codec α) (e : DomElement)
    (name : String) (throwIfEmpty : Bool) (defaultValue : α) : Except QtError α :=
  if !(mapContains name e.mAttributes) then
    .error (.attributeNotFound name e.mName)
  else
    let value := mapValue name e.mAttributes
    match c.stringToObject value throwIfEmpty defaultValue with
    | .ok v => .ok v
    | .error err => .error (.invalidAttribute name value e.mName err.getMsg)

/-- Modelled from the spec: `DomElement::appendChild` (body in
domelement.cpp, which is not under src/) appends the child to the ordered
child list, failing with PreconditionViolation when the node currently has
text (spec section 4.2). -/
def DomElement.appendChild (e child : DomElement) : Except QtError DomElement :=
  if e.mText.isEmpty then .ok (e.withChilds (e.mChilds ++ [child]))
  else .error .preconditionViolation

/-- DomElement::appendTextChild (domelement.h line 308): creates a text
child from the encoded value and appends it. -/
def DomElement.appendTextChild {α : Type} (c : Codec α) (e : DomElement)
    (name : String) (value : α) : Except QtError DomElement :=
  e.appendChild (DomElement.new name (c.objectToString value))

/-- Modelled from the spec: `DomElement::removeChild` (body in
domelement.cpp, which is not under src/) removes the given child from the
ordered child list; removal is modelled positionally. -/
def DomElement.removeChildAt (e : DomElement) (i : Nat) : DomElement :=
  e.withChilds (e.mChilds.eraseIdx i)

/-- Tree-wide document invariant (spec section 3): every node of the tree
has either a nonempty child list and empty text, or no childs at all. -/
inductive TreeInv : DomElement → Prop where
  | mk (n t : String) (cs : List DomElement) (a : AttrMap) :
      (cs ≠ [] → t = "") → (∀ c, c ∈ cs → TreeInv c) → TreeInv (.mk n t cs a)

/-! ComponentSignal (componentsignal.cpp). `Uuid` and `SignalRole` live in
repository files that are not under src/, so their codecs are modelled from
the spec (section 4.1: per-type encode/decode capability whose decode
inverts the canonical encode). Signal emissions are collected in a list. -/

/-- Modelled from the spec: the `Uuid` value type (librepcb Uuid sources
are not under src/) — a stable identifier with a canonical string form;
the default-constructed Uuid is null and encodes to the empty string. -/
structure Uuid : Type where
  value : String
deriving DecidableEq

/-- Uuid::isNull. -/
def Uuid.isNull (u : Uuid) : Bool := u.value.isEmpty

/-- Modelled from the spec: canonical string form of a Uuid. -/
def Uuid.serializeToString (u : Uuid) : String := u.value

/-- Modelled from the spec: decode inverts the canonical encode and fails
on the empty string (a null Uuid is not a valid identifier). -/
def Uuid.deserializeFromString (s : String) : Except QtError Uuid :=
  if s.isEmpty then .error (.runtimeError "Not a valid UUID.") else .ok ⟨s⟩

instance : Inhabited Uuid := ⟨⟨""⟩⟩

/-- Codec for Uuid through the generic template (domelement.h line 669). -/
def uuidCodec : Codec Uuid :=
  ⟨Uuid.serializeToString, stringToObjectGeneric Uuid.deserializeFromString⟩

/-- Modelled from the spec: the `SignalRole` value type (librepcb
SignalRole sources are not under src/), an enumeration of electrical
roles with a canonical string form. -/
inductive SignalRole : Type where
  | passive
  | power
  | input
  | output
  | inout
  | opendrain
deriving DecidableEq

/-- Modelled from the spec: canonical string form of a SignalRole. -/
def SignalRole.serializeToString : SignalRole → String
  | .passive => "passive"
  | .power => "power"
  | .input => "input"
  | .output => "output"
  | .inout => "inout"
  | .opendrain => "opendrain"

/-- Modelled from the spec: decode inverts the canonical encode. -/
def SignalRole.deserializeFromString (s : String) : Except QtError SignalRole :=
  if s = "passive" then .ok .passive
  else if s = "power" then .ok .power
  else if s = "input" then .ok .input
  else if s = "output" then .ok .output
  else if s = "inout" then .ok .inout
  else if s = "opendrain" then .ok .opendrain
  else .error (.runtimeError "Not a valid signal role.")

instance : Inhabited SignalRole := ⟨.passive⟩

/-- Codec for SignalRole through the generic template. -/
def signalRoleCodec : Codec SignalRole :=
  ⟨SignalRole.serializeToString, stringToObjectGeneric SignalRole.deserializeFromString⟩

/-- State of a ComponentSignal (componentsignal.h member variables). -/
structure ComponentSignal : Type where
  mUuid : Uuid
  mName : String
  mRole : SignalRole
  mForcedNetName : String
  mIsRequired : Bool
  mIsNegated : Bool
  mIsClock : Bool
deriving DecidableEq

/-- Qt signal emissions of ComponentSignal, in emission order. -/
inductive Emission : Type where
  | nameChanged (v : String)
  | roleChanged (v : SignalRole)
  | forcedNetNameChanged (v : String)
  | isRequiredChanged (v : Bool)
  | isNegatedChanged (v : Bool)
  | isClockChanged (v : Bool)
  | edited
deriving DecidableEq

/-- ComponentSignal::setName (componentsignal.cpp line 73): early return on
an equal value, else store and emit `nameChanged` then `edited`. -/
def ComponentSignal.setName (s : ComponentSignal) (name : String) :
    ComponentSignal × List Emission :=
  if name = s.mName then (s, [])
  else ({ s with mName := name }, [.nameChanged name, .edited])

/-- ComponentSignal::setRole (componentsignal.cpp line 81). -/
def ComponentSignal.setRole (s : ComponentSignal) (role : SignalRole) :
    ComponentSignal × List Emission :=
  if role = s.mRole then (s, [])
  else ({ s with mRole := role }, [.roleChanged role, .edited])

/-- ComponentSignal::setForcedNetName (componentsignal.cpp line 89). -/
def ComponentSignal.setForcedNetName (s : ComponentSignal) (name : String) :
    ComponentSignal × List Emission :=
  if name = s.mForcedNetName then (s, [])
  else ({ s with mForcedNetName := name }, [.forcedNetNameChanged name, .edited])

/-- ComponentSignal::setIsRequired (componentsignal.cpp line 97). -/
def ComponentSignal.setIsRequired (s : ComponentSignal) (required : Bool) :
    ComponentSignal × List Emission :=
  if required = s.mIsRequired then (s, [])
  else ({ s with mIsRequired := required }, [.isRequiredChanged required, .edited])

/-- ComponentSignal::setIsNegated (componentsignal.cpp line 105). -/
def ComponentSignal.setIsNegated (s : ComponentSignal) (negated : Bool) :
    ComponentSignal × List Emission :=
  if negated = s.mIsNegated then (s, [])
  else ({ s with mIsNegated := negated }, [.isNegatedChanged negated, .edited])

/-- ComponentSignal::setIsClock (componentsignal.cpp line 113). -/
def ComponentSignal.setIsClock (s : ComponentSignal) (clock : Bool) :
    ComponentSignal × List Emission :=
  if clock = s.mIsClock then (s, [])
  else ({ s with mIsClock := clock }, [.isClockChanged clock, .edited])

/-- ComponentSignal::checkAttributesValidity (componentsignal.cpp line
173): the uuid must not be null and the name must not be empty. -/
def ComponentSignal.checkAttributesValidity (s : ComponentSignal) : Bool :=
  !s.mUuid.isNull && !s.mName.isEmpty

/-- ComponentSignal::serialize (componentsignal.cpp line 125): throws
LogicError when the validity check fails, else sets the six attributes and
stores the name as the element text. -/
def ComponentSignal.serialize (s : ComponentSignal) (root : DomElement) :
    Except QtError DomElement :=
  if !s.checkAttributesValidity then .error .logicError
  else
    ((((((root.setAttribute uuidCodec "uuid" s.mUuid).setAttribute
        signalRoleCodec "role" s.mRole).setAttribute
        qstringCodec "forced_net_name" s.mForcedNetName).setAttribute
        boolCodec "required" s.mIsRequired).setAttribute
        boolCodec "negated" s.mIsNegated).setAttribute
        boolCodec "clock" s.mIsClock).setText qstringCodec s.mName

/-- ComponentSignal::ComponentSignal(const DomElement&) (componentsignal.cpp
line 50): read the six attributes and the text, then the validity check. -/
def ComponentSignal.fromDomElement (e : DomElement) : Except QtError ComponentSignal := do
  let uuid ← e.getAttribute uuidCodec "uuid" true default
  let name ← e.getText qstringCodec true ""
  let role ← e.getAttribute signalRoleCodec "role" true default
  let forcedNetName ← e.getAttribute qstringCodec "forced_net_name" false ""
  let isRequired ← e.getAttribute boolCodec "required" true false
  let isNegated ← e.getAttribute boolCodec "negated" true false
  let isClock ← e.getAttribute boolCodec "clock" true false
  let s : ComponentSignal := ⟨uuid, name, role, forcedNetName, isRequired, isNegated, isClock⟩
  if s.checkAttributesValidity then pure s else .error .logicError

/-- ComponentSignal::operator== (componentsignal.cpp line 142): all seven
fields compared. -/
def ComponentSignal.eq (a b : ComponentSignal) : Bool :=
  a.mUuid == b.mUuid && a.mName == b.mName && a.mRole == b.mRole &&
  a.mForcedNetName == b.mForcedNetName && a.mIsRequired == b.mIsRequired &&
  a.mIsNegated == b.mIsNegated && a.mIsClock == b.mIsClock

/-! Project metadata and the set-metadata command
(projectmetadata.cpp, cmdprojectsetmetadata.cpp / .h). -/

/-- AttributeList: only list equality is relevant to the commands. -/
abbrev AttributeList := List (String × String)

/-- The metadata fields of a Project relevant to CmdProjectSetMetadata
(held by ProjectMetadata in this fork). -/
structure Project : Type where
  mName : String
  mAuthor : String
  mVersion : String
  mAttributes : AttributeList
deriving DecidableEq

/-- ProjectMetadata state (projectmetadata.h member variables). -/
structure ProjectMetadata : Type where
  mName : String
  mAuthor : String
  mVersion : String
  mCreated : QDateTime
  mLastModified : QDateTime
  mAttributes : AttributeList
deriving DecidableEq

/-- ProjectMetadata::setName (projectmetadata.cpp line 81). -/
def ProjectMetadata.setName (m : ProjectMetadata) (newName : String) : ProjectMetadata :=
  if newName ≠ m.mName then { m with mName := newName } else m

/-- ProjectMetadata::setAuthor (projectmetadata.cpp line 89). -/
def ProjectMetadata.setAuthor (m : ProjectMetadata) (newAuthor : String) : ProjectMetadata :=
  if newAuthor ≠ m.mAuthor then { m with mAuthor := newAuthor } else m

/-- ProjectMetadata::setVersion (projectmetadata.cpp line 97). -/
def ProjectMetadata.setVersion (m : ProjectMetadata) (newVersion : String) : ProjectMetadata :=
  if newVersion ≠ m.mVersion then { m with mVersion := newVersion } else m

/-- ProjectMetadata::setLastModified (projectmetadata.cpp line 105): the
body of the source function is empty, so the state is returned unchanged
and the argument is ignored. -/
def ProjectMetadata.setLastModified (m : ProjectMetadata) (newLastModified : QDateTime) :
    ProjectMetadata := m

/-- ProjectMetadata::setAttributes (projectmetadata.cpp line 110). -/
def ProjectMetadata.setAttributes (m : ProjectMetadata) (newAttributes : AttributeList) :
    ProjectMetadata :=
  if newAttributes ≠ m.mAttributes then { m with mAttributes := newAttributes } else m

/-- Member variables of CmdProjectSetMetadata (cmdprojectsetmetadata.h
lines 80-87). -/
structure CmdProjectSetMetadata : Type where
  mOldName : String
  mNewName : String
  mOldAuthor : String
  mNewAuthor : String
  mOldVersion : String
  mNewVersion : String
  mOldAttributes : AttributeList
  mNewAttributes : AttributeList
deriving DecidableEq

/-- CmdProjectSetMetadata constructor (cmdprojectsetmetadata.cpp line 37):
every capture initializer is commented out in the source, so all old / new
members are default-constructed (null QString, empty AttributeList). -/
def CmdProjectSetMetadata.init : CmdProjectSetMetadata :=
  ⟨"", "", "", "", "", "", [], []⟩

/-- CmdProjectSetMetadata::setName (cmdprojectsetmetadata.cpp line 55);
only called before the first execution, per the Q_ASSERT. -/
def CmdProjectSetMetadata.setName (c : CmdProjectSetMetadata) (newName : String) :
    CmdProjectSetMetadata := { c with mNewName := newName }

/-- CmdProjectSetMetadata::setAuthor (cmdprojectsetmetadata.cpp line 61). -/
def CmdProjectSetMetadata.setAuthor (c : CmdProjectSetMetadata) (newAuthor : String) :
    CmdProjectSetMetadata := { c with mNewAuthor := newAuthor }

/-- CmdProjectSetMetadata::setVersion (cmdprojectsetmetadata.cpp line 67). -/
def CmdProjectSetMetadata.setVersion (c : CmdProjectSetMetadata) (newVersion : String) :
    CmdProjectSetMetadata := { c with mNewVersion := newVersion }

/-- CmdProjectSetMetadata::setAttributes (cmdprojectsetmetadata.cpp line 73). -/
def CmdProjectSetMetadata.setAttributes (c : CmdProjectSetMetadata)
    (attributes : AttributeList) : CmdProjectSetMetadata :=
  { c with mNewAttributes := attributes }

/-- CmdProjectSetMetadata::performRedo (cmdprojectsetmetadata.cpp line
102): every mutation line of the body is commented out in the source, so
the project is returned unchanged. -/
def CmdProjectSetMetadata.performRedo (c : CmdProjectSetMetadata) (p : Project) : Project := p

/-- CmdProjectSetMetadata::performUndo (cmdprojectsetmetadata.cpp line 94):
every restoration line of the body is commented out in the source, so the
project is returned unchanged. -/
def CmdProjectSetMetadata.performUndo (c : CmdProjectSetMetadata) (p : Project) : Project := p

/-- CmdProjectSetMetadata::performExecute (cmdprojectsetmetadata.cpp line
83): runs performRedo, then reports a change iff any staged new member
differs from the corresponding (default-constructed) old member. -/
def CmdProjectSetMetadata.performExecute (c : CmdProjectSetMetadata) (p : Project) :
    Bool × Project :=
  let p2 := c.performRedo p
  if c.mNewName ≠ c.mOldName then (true, p2)
  else if c.mNewAuthor ≠ c.mOldAuthor then (true, p2)
  else if c.mNewVersion ≠ c.mOldVersion then (true, p2)
  else if c.mNewAttributes ≠ c.mOldAttributes then (true, p2)
  else (false, p2)

/-! Helper lemmas: string emptiness, accessor simplification, map lookups
and the decimal render / parse round trip. -/

theorem String.isEmpty_false_of_ne (s : String) (h : s ≠ "") : s.isEmpty = false := by
  rw [Bool.eq_false_iff]
  simpa [String.isEmpty_iff] using h

theorem String.mk_cons_isEmpty (c : Char) (cs : List Char) :
    (String.mk (c :: cs)).isEmpty = false := by
  rw [Bool.eq_false_iff]
  simp [String.isEmpty_iff, String.ext_iff]

@[simp] theorem DomElement.mName_mk (n t : String) (cs : List DomElement) (a : AttrMap) :
    (DomElement.mk n t cs a).mName = n := rfl

@[simp] theorem DomElement.mText_mk (n t : String) (cs : List DomElement) (a : AttrMap) :
    (DomElement.mk n t cs a).mText = t := rfl

@[simp] theorem DomElement.mChilds_mk (n t : String) (cs : List DomElement) (a : AttrMap) :
    (DomElement.mk n t cs a).mChilds = cs := rfl

@[simp] theorem DomElement.mAttributes_mk (n t : String) (cs : List DomElement) (a : AttrMap) :
    (DomElement.mk n t cs a).mAttributes = a := rfl

@[simp] theorem DomElement.withText_mName (e : DomElement) (t : String) :
    (e.withText t).mName = e.mName := by cases e <;> rfl

@[simp] theorem DomElement.withText_mText (e : DomElement) (t : String) :
    (e.withText t).mText = t := by cases e <;> rfl

@[simp] theorem DomElement.withText_mChilds (e : DomElement) (t : String) :
    (e.withText t).mChilds = e.mChilds := by cases e <;> rfl

@[simp] theorem DomElement.withText_mAttributes (e : DomElement) (t : String) :
    (e.withText t).mAttributes = e.mAttributes := by cases e <;> rfl

@[simp] theorem DomElement.withAttributes_mName (e : DomElement) (a : AttrMap) :
    (e.withAttributes a).mName = e.mName := by cases e <;> rfl

@[simp] theorem DomElement.withAttributes_mText (e : DomElement) (a : AttrMap) :
    (e.withAttributes a).mText = e.mText := by cases e <;> rfl

@[simp] theorem DomElement.withAttributes_mChilds (e : DomElement) (a : AttrMap) :
    (e.withAttributes a).mChilds = e.mChilds := by cases e <;> rfl

@[simp] theorem DomElement.withAttributes_mAttributes (e : DomElement) (a : AttrMap) :
    (e.withAttributes a).mAttributes = a := by cases e <;> rfl

@[simp] theorem DomElement.setAttribute_mName {α : Type} (c : Codec α) (e : DomElement)
    (name : String) (v : α) : (e.setAttribute c name v).mName = e.mName := by
  simp [DomElement.setAttribute]

@[simp] theorem DomElement.setAttribute_mText {α : Type} (c : Codec α) (e : DomElement)
    (name : String) (v : α) : (e.setAttribute c name v).mText = e.mText := by
  simp [DomElement.setAttribute]

@[simp] theorem DomElement.setAttribute_mChilds {α : Type} (c : Codec α) (e : DomElement)
    (name : String) (v : α) : (e.setAttribute c name v).mChilds = e.mChilds := by
  simp [DomElement.setAttribute]

@[simp] theorem DomElement.setAttribute_mAttributes {α : Type} (c : Codec α) (e : DomElement)
    (name : String) (v : α) :
    (e.setAttribute c name v).mAttributes =
      mapInsert name (c.objectToString v) e.mAttributes := by
  simp [DomElement.setAttribute]

@[simp] theorem mapContains_insert_self (k v : String) (m : AttrMap) :
    mapContains k (mapInsert k v m) = true := by
  induction m with
  | nil => simp [mapInsert, mapContains]
  | cons h rest ih =>
    obtain ⟨k1, v1⟩ := h
    by_cases hk : k = k1 <;> simp [mapInsert, mapContains, hk, ih]

@[simp] theorem mapValue_insert_self (k v : String) (m : AttrMap) :
    mapValue k (mapInsert k v m) = v := by
  induction m with
  | nil => simp [mapInsert, mapValue]
  | cons h rest ih =>
    obtain ⟨k1, v1⟩ := h
    by_cases hk : k = k1 <;> simp [mapInsert, mapValue, hk, ih]

theorem mapContains_insert_ne (k k2 v : String) (m : AttrMap) (h : k ≠ k2) :
    mapContains k (mapInsert k2 v m) = mapContains k m := by
  induction m with
  | nil => simp [mapInsert, mapContains, h]
  | cons hd rest ih =>
    obtain ⟨k1, v1⟩ := hd
    by_cases hk : k2 = k1
    · subst hk
      simp [mapInsert, mapContains, h]
    · by_cases hk1 : k = k1 <;> simp [mapInsert, mapContains, hk, hk1, ih]

theorem mapValue_insert_ne (k k2 v : String) (m : AttrMap) (h : k ≠ k2) :
    mapValue k (mapInsert k2 v m) = mapValue k m := by
  induction m with
  | nil => simp [mapInsert, mapValue, h]
  | cons hd rest ih =>
    obtain ⟨k1, v1⟩ := hd
    by_cases hk : k2 = k1
    · subst hk
      simp [mapInsert, mapValue, h]
    · by_cases hk1 : k = k1 <;> simp [mapInsert, mapValue, hk, hk1, ih]

theorem digitToChar_isDigit (d : Nat) (h : d < 10) : (digitToChar d).isDigit = true := by
  interval_cases d <;> decide

theorem charToDigit_digitToChar (d : Nat) (h : d < 10) : charToDigit (digitToChar d) = d := by
  interval_cases d <;> decide

theorem digitToChar_ne_minus (d : Nat) (h : d < 10) : digitToChar d ≠ '-' := by
  interval_cases d <;> decide

theorem digitToChar_ne_plus (d : Nat) (h : d < 10) : digitToChar d ≠ '+' := by
  interval_cases d <;> decide

theorem natToDigitsRevAux_lt_ten :
    ∀ (fuel n d : Nat), d ∈ natToDigitsRevAux fuel n → d < 10 := by
  intro fuel
  induction fuel with
  | zero => intro n d hd; simp [natToDigitsRevAux] at hd
  | succ f ih =>
    intro n d hd
    by_cases h10 : n < 10
    · simp only [natToDigitsRevAux, if_pos h10, List.mem_singleton] at hd
      omega
    · simp only [natToDigitsRevAux, if_neg h10, List.mem_cons] at hd
      rcases hd with hd | hd
      · omega
      · exact ih (n / 10) d hd

theorem natToDigitsRevAux_ne_nil (fuel n : Nat) : natToDigitsRevAux (fuel + 1) n ≠ [] := by
  simp only [natToDigitsRevAux]
  split <;> simp

theorem parseDigitsAux_append (l1 l2 : List Char) (acc : Nat) :
    parseDigitsAux (l1 ++ l2) acc =
      (parseDigitsAux l1 acc).bind (fun a => parseDigitsAux l2 a) := by
  induction l1 generalizing acc with
  | nil => rfl
  | cons c cs ih =>
    simp only [List.cons_append, parseDigitsAux]
    split <;> simp [ih]

theorem parseDigitsAux_render :
    ∀ (fuel n acc : Nat), n ≤ fuel →
      parseDigitsAux (((natToDigitsRevAux (fuel + 1) n).map digitToChar).reverse) acc
        = some (acc * 10 ^ (natToDigitsRevAux (fuel + 1) n).length + n) := by
  intro fuel
  induction fuel with
  | zero =>
    intro n acc hn
    interval_cases n
    simp [natToDigitsRevAux, parseDigitsAux, digitToChar_isDigit 0 (by omega),
      charToDigit_digitToChar 0 (by omega)]
    ring
  | succ f ih =>
    intro n acc hn
    by_cases h10 : n < 10
    · simp only [natToDigitsRevAux, if_pos h10]
      simp [parseDigitsAux, digitToChar_isDigit n h10, charToDigit_digitToChar n h10]
      ring
    · have hrec : natToDigitsRevAux (f + 1 + 1) n
          = n % 10 :: natToDigitsRevAux (f + 1) (n / 10) := by
        simp only [natToDigitsRevAux, if_neg h10]
      rw [hrec]
      simp only [List.map_cons, List.reverse_cons]
      rw [parseDigitsAux_append]
      have hdiv : n / 10 ≤ f := by omega
      rw [ih (n / 10) acc hdiv]
      have hm : n % 10 < 10 := Nat.mod_lt n (by omega)
      simp only [Option.some_bind, parseDigitsAux, digitToChar_isDigit (n % 10) hm,
        if_pos, charToDigit_digitToChar (n % 10) hm, List.length_cons]
      congr 1
      have h1 : 10 * (n / 10) + n % 10 = n := Nat.div_add_mod n 10
      calc 10 * (acc * 10 ^ (natToDigitsRevAux (f + 1) (n / 10)).length + n / 10) + n % 10
          = acc * (10 ^ (natToDigitsRevAux (f + 1) (n / 10)).length * 10)
              + (10 * (n / 10) + n % 10) := by ring
        _ = acc * 10 ^ ((natToDigitsRevAux (f + 1) (n / 10)).length + 1) + n := by
              rw [h1, pow_succ]

theorem natDigitsRev_ne_nil (n : Nat) : natDigitsRev n ≠ [] :=
  natToDigitsRevAux_ne_nil n n

theorem parseNatDigits_render (n : Nat) :
    parseNatDigits (((natDigitsRev n).map digitToChar).reverse) = some n := by
  have hr : parseDigitsAux (((natDigitsRev n).map digitToChar).reverse) 0
      = some (0 * 10 ^ (natDigitsRev n).length + n) :=
    parseDigitsAux_render n n 0 (le_refl n)
  cases hl : ((natDigitsRev n).map digitToChar).reverse with
  | nil =>
    exfalso
    simp at hl
    exact natDigitsRev_ne_nil n hl
  | cons c cs =>
    have hpn : parseNatDigits (c :: cs) = parseDigitsAux (c :: cs) 0 := rfl
    rw [hl] at hr
    rw [hpn, hr]
    simp

theorem parseIntChars_minus (rest : List Char) :
    parseIntChars ('-' :: rest) = (parseNatDigits rest).map (fun n => -(n : Int)) := rfl

theorem parseIntChars_digit (c : Char) (rest : List Char) (hm : c ≠ '-') (hp : c ≠ '+') :
    parseIntChars (c :: rest) = (parseNatDigits (c :: rest)).map (fun n => (n : Int)) := by
  simp only [parseIntChars]
  rw [if_neg hm, if_neg hp]

theorem parseIntChars_qStringNumber (i : Int) :
    parseIntChars (qStringNumber i).data = some i := by
  by_cases hneg : i < 0
  · rw [qStringNumber, if_pos hneg]
    show parseIntChars ('-' :: ((natDigitsRev i.natAbs).map digitToChar).reverse) = some i
    rw [parseIntChars_minus, parseNatDigits_render]
    show some (-((i.natAbs : Nat) : Int)) = some i
    have hv : -((i.natAbs : Nat) : Int) = i := by omega
    rw [hv]
  · rw [qStringNumber, if_neg hneg]
    cases hl : ((natDigitsRev i.natAbs).map digitToChar).reverse with
    | nil =>
      exfalso
      simp at hl
      exact natDigitsRev_ne_nil i.natAbs hl
    | cons c cs =>
      have hc : ∃ d, d < 10 ∧ digitToChar d = c := by
        have hmem : c ∈ ((natDigitsRev i.natAbs).map digitToChar).reverse := by
          rw [hl]; exact List.mem_cons_self c cs
        rw [List.mem_reverse, List.mem_map] at hmem
        obtain ⟨d, hd, hdc⟩ := hmem
        exact ⟨d, natToDigitsRevAux_lt_ten _ _ d hd, hdc⟩
      obtain ⟨d, hd10, hdc⟩ := hc
      have hcm : c ≠ '-' := by rw [← hdc]; exact digitToChar_ne_minus d hd10
      have hcp : c ≠ '+' := by rw [← hdc]; exact digitToChar_ne_plus d hd10
      show parseIntChars ((natDigitsRev i.natAbs).map digitToChar).reverse = some i
      rw [hl, parseIntChars_digit c cs hcm hcp, ← hl, parseNatDigits_render]
      show some (((i.natAbs : Nat) : Int)) = some i
      have hv : ((i.natAbs : Nat) : Int) = i := by omega
      rw [hv]

theorem qStringToInt_qStringNumber (i : Int) (h1 : -(2 ^ 31) ≤ i) (h2 : i ≤ 2 ^ 31 - 1) :
    qStringToInt (qStringNumber i) = some i := by
  rw [qStringToInt, parseIntChars_qStringNumber]
  exact if_pos ⟨h1, h2⟩

theorem parseTwo_digits (n : Nat) (h : n ≤ 99) :
    parseTwo (digitToChar (n / 10 % 10)) (digitToChar (n % 10)) = some n := by
  have h1 : n / 10 % 10 < 10 := Nat.mod_lt _ (by omega)
  have h2 : n % 10 < 10 := Nat.mod_lt _ (by omega)
  simp [parseTwo, digitToChar_isDigit _ h1, digitToChar_isDigit _ h2,
    charToDigit_digitToChar _ h1, charToDigit_digitToChar _ h2]
  omega

theorem parseFour_digits (n : Nat) (h : n ≤ 9999) :
    parseFour (digitToChar (n / 1000 % 10)) (digitToChar (n / 100 % 10))
      (digitToChar (n / 10 % 10)) (digitToChar (n % 10)) = some n := by
  have h1 : n / 1000 % 10 < 10 := Nat.mod_lt _ (by omega)
  have h2 : n / 100 % 10 < 10 := Nat.mod_lt _ (by omega)
  have h3 : n / 10 % 10 < 10 := Nat.mod_lt _ (by omega)
  have h4 : n % 10 < 10 := Nat.mod_lt _ (by omega)
  simp [parseFour, digitToChar_isDigit _ h1, digitToChar_isDigit _ h2,
    digitToChar_isDigit _ h3, digitToChar_isDigit _ h4,
    charToDigit_digitToChar _ h1, charToDigit_digitToChar _ h2,
    charToDigit_digitToChar _ h3, charToDigit_digitToChar _ h4]
  omega

theorem daysInMonth_le (y m : Nat) : daysInMonth y m ≤ 31 := by
  unfold daysInMonth
  split_ifs <;> omega

theorem qDateTimeFromString_mk (a1 a2 a3 a4 b1 b2 c1 c2 e1 e2 f1 f2 g1 g2 : Char) :
    qDateTimeFromString (String.mk [a1, a2, a3, a4, '-', b1, b2, '-', c1, c2, 'T',
        e1, e2, ':', f1, f2, ':', g1, g2, 'Z'])
      = match parseFour a1 a2 a3 a4, parseTwo b1 b2, parseTwo c1 c2,
              parseTwo e1 e2, parseTwo f1 f2, parseTwo g1 g2 with
        | some y, some mo, some da, some ho, some mi, some se =>
          let f : DateTimeFields := ⟨y, mo, da, ho, mi, se⟩
          if isValidDateTime f then some f else none
        | _, _, _, _, _, _ => none := rfl

theorem qDateTimeFromString_toString (d : DateTimeFields) (h : isValidDateTime d = true) :
    qDateTimeFromString (qDateTimeToString (some d)) = some d := by
  obtain ⟨y, mo, da, ho, mi, se⟩ := d
  have hb : 1 ≤ y ∧ y ≤ 9999 ∧ 1 ≤ mo ∧ mo ≤ 12 ∧ 1 ≤ da ∧ da ≤ daysInMonth y mo ∧
      ho ≤ 23 ∧ mi ≤ 59 ∧ se ≤ 59 := by
    have h2 := h
    simp only [isValidDateTime, Bool.and_eq_true, decide_eq_true_eq] at h2
    tauto
  obtain ⟨hy1, hy2, hmo1, hmo2, hda1, hda2, hho, hmi, hse⟩ := hb
  have hdm := daysInMonth_le y mo
  have hs : qDateTimeToString (some ⟨y, mo, da, ho, mi, se⟩)
      = String.mk [digitToChar (y / 1000 % 10), digitToChar (y / 100 % 10),
          digitToChar (y / 10 % 10), digitToChar (y % 10), '-',
          digitToChar (mo / 10 % 10), digitToChar (mo % 10), '-',
          digitToChar (da / 10 % 10), digitToChar (da % 10), 'T',
          digitToChar (ho / 10 % 10), digitToChar (ho % 10), ':',
          digitToChar (mi / 10 % 10), digitToChar (mi % 10), ':',
          digitToChar (se / 10 % 10), digitToChar (se % 10), 'Z'] := rfl
  rw [hs, qDateTimeFromString_mk]
  rw [parseFour_digits y (by omega), parseTwo_digits mo (by omega),
    parseTwo_digits da (by omega), parseTwo_digits ho (by omega),
    parseTwo_digits mi (by omega), parseTwo_digits se (by omega)]
  show (if isValidDateTime ⟨y, mo, da, ho, mi, se⟩ = true then
      some (⟨y, mo, da, ho, mi, se⟩ : DateTimeFields) else none) = some ⟨y, mo, da, ho, mi, se⟩
  rw [if_pos h]

theorem exceptOkBind {ε α β : Type} (a : α) (f : α → Except ε β) :
    (Except.ok a : Except ε α) >>= f = f a := rfl

theorem stringToObjectQString_nonempty (s : String) (req : Bool) (h : s.isEmpty = false) :
    stringToObjectQString s req = .ok s := by
  simp [stringToObjectQString, h]

theorem treeInv_new (name t : String) : TreeInv (DomElement.new name t) :=
  TreeInv.mk name t [] [] (fun hne => absurd rfl hne) (fun c hc => absurd hc (List.not_mem_nil c))

theorem treeInv_setText {α : Type} (c : Codec α) (e e2 : DomElement) (v : α)
    (h : e.setText c v = .ok e2) : TreeInv e2 := by
  obtain ⟨n, t, cs, a⟩ := e
  rw [DomElement.setText] at h
  split at h
  · rename_i hcs
    simp only [DomElement.mChilds_mk, List.isEmpty_iff] at hcs
    subst hcs
    cases h
    exact TreeInv.mk _ _ _ _ (fun hne => absurd rfl hne) (fun c hc => absurd hc (List.not_mem_nil c))
  · cases h

theorem treeInv_appendChild (e child e2 : DomElement) (h1 : TreeInv e) (h2 : TreeInv child)
    (h : e.appendChild child = .ok e2) : TreeInv e2 := by
  obtain ⟨n, t, cs, a⟩ := e
  rw [DomElement.appendChild] at h
  split at h
  · rename_i ht
    simp only [DomElement.mText_mk, String.isEmpty_iff] at ht
    subst ht
    cases h
    cases h1 with
    | mk _ _ _ _ hte hmem =>
      refine TreeInv.mk _ _ _ _ (fun _ => rfl) (fun c hc => ?_)
      rcases List.mem_append.mp hc with hc | hc
      · exact hmem c hc
      · rw [List.mem_singleton.mp hc]
        exact h2
  · cases h

theorem treeInv_removeChildAt (e : DomElement) (i : Nat) (h : TreeInv e) :
    TreeInv (e.removeChildAt i) := by
  obtain ⟨n, t, cs, a⟩ := e
  cases h with
  | mk _ _ _ _ hte hmem =>
    refine TreeInv.mk _ _ _ _ (fun hne => ?_) (fun c hc => ?_)
    · apply hte
      intro hcs
      apply hne
      rw [hcs]
      simp
    · exact hmem c (List.eraseIdx_subset cs i hc)

theorem stringToObjectBool_invalid (s : String) (req : Bool) (dflt : Bool)
    (h1 : s ≠ "") (h2 : s ≠ "true") (h3 : s ≠ "false") :
    stringToObjectBool s req dflt = .error (.runtimeError "Not a valid boolean.") := by
  have hf : s.isEmpty = false := String.isEmpty_false_of_ne s h1
  simp [stringToObjectBool, stringToObjectQString_nonempty s req hf, exceptOkBind, h2, h3, hf]

theorem stringToObjectInt_invalid (s : String) (req : Bool) (dflt : Int)
    (h1 : s ≠ "") (hq : qStringToInt s = none) :
    stringToObjectInt s req dflt = .error (.runtimeError "Not a valid integer.") := by
  have hf : s.isEmpty = false := String.isEmpty_false_of_ne s h1
  simp [stringToObjectInt, stringToObjectQString_nonempty s req hf, exceptOkBind, hq, hf]

theorem stringToObjectInt_some (s : String) (v : Int) (req : Bool) (dflt : Int)
    (hq : qStringToInt s = some v) :
    stringToObjectInt s req dflt = .ok v := by
  have h1 : s ≠ "" := by
    intro he
    subst he
    rw [show qStringToInt "" = none from rfl] at hq
    exact Option.noConfusion hq
  have hf : s.isEmpty = false := String.isEmpty_false_of_ne s h1
  simp [stringToObjectInt, stringToObjectQString_nonempty s req hf, exceptOkBind, hq]
  rfl

theorem getText_wrap {α : Type} (c : Codec α) (e : DomElement) (req : Bool) (dflt : α)
    (err : QtError) (hc : e.mChilds = [])
    (hres : c.stringToObject e.mText req dflt = .error err) :
    e.getText c req dflt = .error (.fileParseTextInvalid e.mText e.mName err.getMsg) := by
  have h : e.hasChilds = false := by simp [DomElement.hasChilds, hc]
  simp [DomElement.getText, h, hres]

theorem setText_ok {α : Type} (c : Codec α) (e : DomElement) (v : α) (h : e.mChilds = []) :
    e.setText c v = .ok (e.withText (c.objectToString v)) := by
  simp [DomElement.setText, h]

theorem getText_ok {α : Type} (c : Codec α) (e : DomElement) (req : Bool) (dflt res : α)
    (hc : e.mChilds = []) (hres : c.stringToObject e.mText req dflt = .ok res) :
    e.getText c req dflt = .ok res := by
  have h : e.hasChilds = false := by simp [DomElement.hasChilds, hc]
  simp [DomElement.getText, h, hres]

theorem boolCodec_roundtrip (b req dflt : Bool) :
    boolCodec.stringToObject (boolCodec.objectToString b) req dflt = .ok b := by
  cases b <;> rfl

theorem qDateTimeCodec_roundtrip (d : DateTimeFields) (req : Bool) (dflt : QDateTime)
    (h : isValidDateTime d = true) :
    qDateTimeCodec.stringToObject (qDateTimeCodec.objectToString (some d)) req dflt
      = .ok (some d) := by
  have hne : (qDateTimeToString (some d)).isEmpty = false := by
    obtain ⟨y, mo, da, ho, mi, se⟩ := d
    exact String.mk_cons_isEmpty _ _
  show stringToObjectQDateTime (qDateTimeToString (some d)) req dflt = .ok (some d)
  simp [stringToObjectQDateTime, stringToObjectQString_nonempty _ req hne, exceptOkBind,
    qDateTimeFromString_toString d h]
  rfl

theorem stringToObjectQString_not_required (s : String) :
    stringToObjectQString s false = .ok s := by
  simp [stringToObjectQString]

theorem stringToObjectUuid_ok (u : Uuid) (req : Bool) (dflt : Uuid) (h : u.isNull = false) :
    stringToObjectGeneric Uuid.deserializeFromString u.value req dflt = .ok u := by
  obtain ⟨uv⟩ := u
  have hne : uv.isEmpty = false := h
  simp [stringToObjectGeneric, stringToObjectQString_nonempty _ req hne, exceptOkBind,
    Uuid.deserializeFromString, hne]

theorem stringToObjectSignalRole_ok (r : SignalRole) (req : Bool) (dflt : SignalRole) :
    stringToObjectGeneric SignalRole.deserializeFromString r.serializeToString req dflt
      = .ok r := by
  cases r <;> rfl

theorem stringToObjectBool_encode (b req dflt : Bool) :
    stringToObjectBool (if b then "true" else "false") req dflt = .ok b := by
  cases b <;> rfl

theorem getAttribute_found {α : Type} (c : Codec α) (e : DomElement) (name : String)
    (req : Bool) (dflt res : α) (hc : mapContains name e.mAttributes = true)
    (hres : c.stringToObject (mapValue name e.mAttributes) req dflt = .ok res) :
    e.getAttribute c name req dflt = .ok res := by
  simp [DomElement.getAttribute, hc, hres]

theorem serialize_fresh (n t : String) (su : Uuid) (sn : String) (sr : SignalRole)
    (sf : String) (sq sg sc : Bool) (hval :
      ComponentSignal.checkAttributesValidity ⟨su, sn, sr, sf, sq, sg, sc⟩ = true) :
    ComponentSignal.serialize ⟨su, sn, sr, sf, sq, sg, sc⟩ (DomElement.mk n t [] [])
      = .ok (DomElement.mk n sn []
          [("uuid", su.value), ("role", sr.serializeToString), ("forced_net_name", sf),
           ("required", if sq then "true" else "false"),
           ("negated", if sg then "true" else "false"),
           ("clock", if sc then "true" else "false")]) := by
  simp [ComponentSignal.serialize, hval, DomElement.setAttribute, DomElement.withAttributes,
    mapInsert, DomElement.setText, DomElement.withText, uuidCodec, signalRoleCodec,
    boolCodec, qstringCodec, Uuid.serializeToString]

theorem fromDomElement_serialized (n : String) (su : Uuid) (sn : String) (sr : SignalRole)
    (sf : String) (sq sg sc : Bool) (h1 : su.isNull = false) (h2 : sn ≠ "") :
    ComponentSignal.fromDomElement (DomElement.mk n sn []
        [("uuid", su.value), ("role", sr.serializeToString), ("forced_net_name", sf),
         ("required", if sq then "true" else "false"),
         ("negated", if sg then "true" else "false"),
         ("clock", if sc then "true" else "false")])
      = .ok ⟨su, sn, sr, sf, sq, sg, sc⟩ := by
  have hne : sn.isEmpty = false := String.isEmpty_false_of_ne sn h2
  have hvalid : ComponentSignal.checkAttributesValidity ⟨su, sn, sr, sf, sq, sg, sc⟩ = true := by
    simp [ComponentSignal.checkAttributesValidity, h1, hne]
  simp [ComponentSignal.fromDomElement, DomElement.getAttribute, DomElement.getText,
    DomElement.hasChilds, mapContains, mapValue, exceptOkBind, uuidCodec, signalRoleCodec,
    boolCodec, qstringCodec, stringToObjectUuid_ok su true _ h1, stringToObjectSignalRole_ok,
    stringToObjectBool_encode, stringToObjectQString_nonempty sn true hne,
    stringToObjectQString_not_required, hvalid]
  rfl

/-- Claim C1 counterexample: on a node without attributes, `getAttribute`
with `required = false` does NOT return the supplied default — it fails,
because the absence check at domelement.h line 234 throws before
`throwIfEmpty` is ever consulted. -/
theorem claim1_counterexample :
    ¬ ((DomElement.mk "node" "" [] []).getAttribute qstringCodec "missing" false "fallback"
        = Except.ok "fallback") := by
  simp [DomElement.getAttribute, mapContains]

/-- Claim C1 (amended): for every DomElement and every attribute name
absent from its attribute map, `getAttribute` fails with the
attribute-not-found (MissingReference) error for both `required = true`
and `required = false`; the supplied default is never returned for an
absent attribute. -/
theorem claim1_missing_attribute_fails {α : Type} (c : Codec α) (e : DomElement)
    (name : String) (throwIfEmpty : Bool) (defaultValue : α)
    (h : mapContains name e.mAttributes = false) :
    e.getAttribute c name throwIfEmpty defaultValue =
      .error (.attributeNotFound name e.mName) := by
  simp [DomElement.getAttribute, h]

/-- Claim C1 witness: concrete instantiation of the amended theorem. -/
theorem claim1_witness :
    mapContains "missing" (DomElement.mk "node" "" [] []).mAttributes = false ∧
    (DomElement.mk "node" "" [] []).getAttribute qstringCodec "missing" true "fallback" =
      .error (.attributeNotFound "missing" "node") :=
  ⟨rfl, claim1_missing_attribute_fails qstringCodec (DomElement.mk "node" "" [] [])
    "missing" true "fallback" rfl⟩

/-- Claim C2 (code bug evidence): with a staged new name, performExecute
reports `changed = true` yet leaves the project completely untouched (the
mutation and the capture of prior values are commented out in the source),
and the captured prior name is the default-constructed empty string rather
than the project field value — contradicting the claimed capture / write /
compare semantics. -/
theorem claim2_execute_bug :
    (CmdProjectSetMetadata.init.setName "NewName").performExecute
        (Project.mk "MyProject" "Alice" "v1" []) =
      (true, Project.mk "MyProject" "Alice" "v1" []) ∧
    ("MyProject" : String) ≠ "NewName" ∧
    (CmdProjectSetMetadata.init.setName "NewName").mOldName = "" := by
  exact ⟨by decide, by decide, rfl⟩

/-- Claim C3 (code bug evidence): performUndo writes nothing back (its body
is commented out in the source). After execute and undo the project still
holds its original name only because execute never mutated it, and the
captured prior value (default-constructed empty string) differs from the
project field value that the claim says it captured and restores. -/
theorem claim3_undo_bug :
    ((CmdProjectSetMetadata.init.setName "NewName").performUndo
        ((CmdProjectSetMetadata.init.setName "NewName").performExecute
          (Project.mk "MyProject" "Alice" "v1" [])).2) =
      Project.mk "MyProject" "Alice" "v1" [] ∧
    (CmdProjectSetMetadata.init.setName "NewName").mOldName ≠
      (Project.mk "MyProject" "Alice" "v1" []).mName := by
  exact ⟨by decide, by decide⟩

/-- Claim C6: setText on a node with child elements fails with the
precondition violation (the Q_ASSERT at domelement.h line 156) and no text
is stored; appendChild on a node with nonempty text fails with the
precondition violation and no child is appended. -/
theorem claim6_shape_preconditions {α : Type} (c : Codec α) (e child : DomElement) (v : α) :
    (e.mChilds ≠ [] → e.setText c v = .error .preconditionViolation) ∧
    (e.mText ≠ "" → e.appendChild child = .error .preconditionViolation) := by
  constructor
  · intro h
    have hf : e.mChilds.isEmpty = false := by
      rw [Bool.eq_false_iff]
      simpa [List.isEmpty_iff] using h
    simp [DomElement.setText, hf]
  · intro h
    have hf : e.mText.isEmpty = false := String.isEmpty_false_of_ne e.mText h
    simp [DomElement.appendChild, hf]

/-- Claim C6 witness: a node with one child rejects setText; a node with
text rejects appendChild. -/
theorem claim6_witness :
    ((DomElement.mk "parent" "" [DomElement.new "c"] []).setText qstringCodec "x"
        = .error .preconditionViolation) ∧
    ((DomElement.mk "leaf" "txt" [] []).appendChild (DomElement.new "c")
        = .error .preconditionViolation) :=
  ⟨(claim6_shape_preconditions qstringCodec (DomElement.mk "parent" "" [DomElement.new "c"] [])
      (DomElement.new "c") "x").1 (by simp),
   (claim6_shape_preconditions qstringCodec (DomElement.mk "leaf" "txt" [] [])
      (DomElement.new "c") "x").2 (by simp)⟩

/-- Claim C7: construction and every DomElement mutation in scope
(setText, appendChild, appendTextChild, removeChild) preserve the tree
invariant that no node ever has both text and child elements. -/
theorem claim7_invariant_preserved {α : Type} (c : Codec α) (e child e2 : DomElement)
    (v : α) (name t : String) (i : Nat) :
    TreeInv (DomElement.new name t) ∧
    (TreeInv e → e.setText c v = .ok e2 → TreeInv e2) ∧
    (TreeInv e → TreeInv child → e.appendChild child = .ok e2 → TreeInv e2) ∧
    (TreeInv e → e.appendTextChild c name v = .ok e2 → TreeInv e2) ∧
    (TreeInv e → TreeInv (e.removeChildAt i)) :=
  ⟨treeInv_new name t,
   fun _ h => treeInv_setText c e e2 v h,
   fun h1 h2 h => treeInv_appendChild e child e2 h1 h2 h,
   fun h1 h => treeInv_appendChild e (DomElement.new name (c.objectToString v)) e2 h1
     (treeInv_new name (c.objectToString v)) h,
   fun h => treeInv_removeChildAt e i h⟩

/-- Claim C7 witness: concrete instantiation discharging the invariant
hypotheses. -/
theorem claim7_witness :
    TreeInv (DomElement.new "root" "") ∧
    TreeInv ((DomElement.new "root" "").removeChildAt 0) :=
  ⟨treeInv_new "root" "",
   (claim7_invariant_preserved qstringCodec (DomElement.new "root" "") (DomElement.new "c" "")
      (DomElement.new "x" "") "v" "n" "" 0).2.2.2.2 (treeInv_new "root" "")⟩

/-- Claim C8: each ComponentSignal setter stores exactly its argument in
the targeted field, leaves every other field unchanged, and emits the
per-field changed signal followed by edited precisely when the argument
differs from the previous field value; an equal argument changes nothing
and emits nothing. -/
theorem claim8_setters (s : ComponentSignal) (v : String) (r : SignalRole) (b : Bool) :
    ((s.setName v).1.mUuid = s.mUuid ∧ (s.setName v).1.mName = v ∧
      (s.setName v).1.mRole = s.mRole ∧ (s.setName v).1.mForcedNetName = s.mForcedNetName ∧
      (s.setName v).1.mIsRequired = s.mIsRequired ∧ (s.setName v).1.mIsNegated = s.mIsNegated ∧
      (s.setName v).1.mIsClock = s.mIsClock ∧
      (s.setName v).2 = (if v = s.mName then [] else [Emission.nameChanged v, Emission.edited]) ∧
      (s.setName s.mName).1 = s) ∧
    ((s.setRole r).1.mUuid = s.mUuid ∧ (s.setRole r).1.mName = s.mName ∧
      (s.setRole r).1.mRole = r ∧ (s.setRole r).1.mForcedNetName = s.mForcedNetName ∧
      (s.setRole r).1.mIsRequired = s.mIsRequired ∧ (s.setRole r).1.mIsNegated = s.mIsNegated ∧
      (s.setRole r).1.mIsClock = s.mIsClock ∧
      (s.setRole r).2 = (if r = s.mRole then [] else [Emission.roleChanged r, Emission.edited]) ∧
      (s.setRole s.mRole).1 = s) ∧
    ((s.setForcedNetName v).1.mUuid = s.mUuid ∧ (s.setForcedNetName v).1.mName = s.mName ∧
      (s.setForcedNetName v).1.mRole = s.mRole ∧ (s.setForcedNetName v).1.mForcedNetName = v ∧
      (s.setForcedNetName v).1.mIsRequired = s.mIsRequired ∧
      (s.setForcedNetName v).1.mIsNegated = s.mIsNegated ∧
      (s.setForcedNetName v).1.mIsClock = s.mIsClock ∧
      (s.setForcedNetName v).2 =
        (if v = s.mForcedNetName then [] else [Emission.forcedNetNameChanged v, Emission.edited]) ∧
      (s.setForcedNetName s.mForcedNetName).1 = s) ∧
    ((s.setIsRequired b).1.mUuid = s.mUuid ∧ (s.setIsRequired b).1.mName = s.mName ∧
      (s.setIsRequired b).1.mRole = s.mRole ∧
      (s.setIsRequired b).1.mForcedNetName = s.mForcedNetName ∧
      (s.setIsRequired b).1.mIsRequired = b ∧ (s.setIsRequired b).1.mIsNegated = s.mIsNegated ∧
      (s.setIsRequired b).1.mIsClock = s.mIsClock ∧
      (s.setIsRequired b).2 =
        (if b = s.mIsRequired then [] else [Emission.isRequiredChanged b, Emission.edited]) ∧
      (s.setIsRequired s.mIsRequired).1 = s) ∧
    ((s.setIsNegated b).1.mUuid = s.mUuid ∧ (s.setIsNegated b).1.mName = s.mName ∧
      (s.setIsNegated b).1.mRole = s.mRole ∧
      (s.setIsNegated b).1.mForcedNetName = s.mForcedNetName ∧
      (s.setIsNegated b).1.mIsRequired = s.mIsRequired ∧ (s.setIsNegated b).1.mIsNegated = b ∧
      (s.setIsNegated b).1.mIsClock = s.mIsClock ∧
      (s.setIsNegated b).2 =
        (if b = s.mIsNegated then [] else [Emission.isNegatedChanged b, Emission.edited]) ∧
      (s.setIsNegated s.mIsNegated).1 = s) ∧
    ((s.setIsClock b).1.mUuid = s.mUuid ∧ (s.setIsClock b).1.mName = s.mName ∧
      (s.setIsClock b).1.mRole = s.mRole ∧ (s.setIsClock b).1.mForcedNetName = s.mForcedNetName ∧
      (s.setIsClock b).1.mIsRequired = s.mIsRequired ∧
      (s.setIsClock b).1.mIsNegated = s.mIsNegated ∧ (s.setIsClock b).1.mIsClock = b ∧
      (s.setIsClock b).2 =
        (if b = s.mIsClock then [] else [Emission.isClockChanged b, Emission.edited]) ∧
      (s.setIsClock s.mIsClock).1 = s) := by
  refine ⟨?_, ?_, ?_, ?_, ?_, ?_⟩
  · by_cases h : v = s.mName <;> simp [ComponentSignal.setName, h]
  · by_cases h : r = s.mRole <;> simp [ComponentSignal.setRole, h]
  · by_cases h : v = s.mForcedNetName <;> simp [ComponentSignal.setForcedNetName, h]
  · by_cases h : b = s.mIsRequired <;> simp [ComponentSignal.setIsRequired, h]
  · by_cases h : b = s.mIsNegated <;> simp [ComponentSignal.setIsNegated, h]
  · by_cases h : b = s.mIsClock <;> simp [ComponentSignal.setIsClock, h]

/-- Claim C10: setLastModified is a no-op — it leaves the entire
ProjectMetadata state unchanged, including the last-modified timestamp
itself, because the body of the source function is empty. -/
theorem claim10_setLastModified_noop (m : ProjectMetadata) (d : QDateTime) :
    (m.setLastModified d).mName = m.mName ∧
    (m.setLastModified d).mAuthor = m.mAuthor ∧
    (m.setLastModified d).mVersion = m.mVersion ∧
    (m.setLastModified d).mCreated = m.mCreated ∧
    (m.setLastModified d).mLastModified = m.mLastModified ∧
    (m.setLastModified d).mAttributes = m.mAttributes ∧
    m.setLastModified d = m :=
  ⟨rfl, rfl, rfl, rfl, rfl, rfl, rfl⟩

/-- Claim C5: the decode contract for bool and int — empty text with
`required = false` yields the supplied default, empty text with
`required = true` fails with the empty-value error, nonempty text that
does not parse fails with the invalid-format error for that type (and the
getText wrapper attaches the raw text and node name to that failure), and
text that parses yields the parsed value. -/
theorem claim5_decode_contract (s : String) (dfltB req : Bool) (dfltI : Int) :
    (s = "" → stringToObjectBool s false dfltB = .ok dfltB) ∧
    (s = "" → stringToObjectInt s false dfltI = .ok dfltI) ∧
    (s = "" → stringToObjectBool s true dfltB = .error (.runtimeError "String is empty.")) ∧
    (s = "" → stringToObjectInt s true dfltI = .error (.runtimeError "String is empty.")) ∧
    (s ≠ "" → s ≠ "true" → s ≠ "false" →
      stringToObjectBool s req dfltB = .error (.runtimeError "Not a valid boolean.")) ∧
    (s ≠ "" → qStringToInt s = none →
      stringToObjectInt s req dfltI = .error (.runtimeError "Not a valid integer.")) ∧
    (stringToObjectBool "true" req dfltB = .ok true) ∧
    (stringToObjectBool "false" req dfltB = .ok false) ∧
    (∀ v : Int, qStringToInt s = some v → stringToObjectInt s req dfltI = .ok v) ∧
    (∀ e : DomElement, e.mChilds = [] → e.mText = s → s ≠ "" → s ≠ "true" → s ≠ "false" →
      e.getText boolCodec req dfltB =
        .error (.fileParseTextInvalid s e.mName "Not a valid boolean.")) := by
  refine ⟨fun h => by subst h; rfl, fun h => by subst h; rfl, fun h => by subst h; rfl,
    fun h => by subst h; rfl,
    fun h1 h2 h3 => stringToObjectBool_invalid s req dfltB h1 h2 h3,
    fun h1 hq => stringToObjectInt_invalid s req dfltI h1 hq,
    rfl, rfl,
    fun v hq => stringToObjectInt_some s v req dfltI hq,
    fun e hc ht h1 h2 h3 => ?_⟩
  have hres : boolCodec.stringToObject e.mText req dfltB
      = .error (.runtimeError "Not a valid boolean.") := by
    rw [ht]
    exact stringToObjectBool_invalid s req dfltB h1 h2 h3
  have hw := getText_wrap boolCodec e req dfltB _ hc hres
  rw [ht] at hw
  exact hw

/-- Claim C5 witness: concrete instantiations — empty text with default,
a non-boolean text, a non-integer text, and a parsing integer. -/
theorem claim5_witness :
    stringToObjectBool "" false true = .ok true ∧
    stringToObjectBool "xyz" true false = .error (.runtimeError "Not a valid boolean.") ∧
    stringToObjectInt "12a" false 7 = .error (.runtimeError "Not a valid integer.") ∧
    stringToObjectInt "-5" true 0 = .ok (-5) :=
  ⟨(claim5_decode_contract "" true false 0).1 rfl,
   (claim5_decode_contract "xyz" false true 0).2.2.2.2.1 (by decide) (by decide) (by decide),
   (claim5_decode_contract "12a" false false 7).2.2.2.2.2.1 (by decide) (by decide),
   (claim5_decode_contract "-5" false true 0).2.2.2.2.2.2.2.2.1 (-5) (by decide)⟩

/-- Claim C4: on a childless element, setText followed by getText with
`required = true` returns the original value for booleans (canonical
"true"/"false"), 32-bit integers (base-10), and valid datetimes (ISO-8601
UTC) — the decode inverts the canonical encode. -/
theorem claim4_text_roundtrip (e : DomElement) (he : e.mChilds = []) :
    (∀ b dflt : Bool,
      (e.setText boolCodec b).bind (fun e2 => e2.getText boolCodec true dflt) = .ok b) ∧
    (∀ i dflt : Int, -(2 ^ 31) ≤ i → i ≤ 2 ^ 31 - 1 →
      (e.setText intCodec i).bind (fun e2 => e2.getText intCodec true dflt) = .ok i) ∧
    (∀ (d : DateTimeFields) (dflt : QDateTime), isValidDateTime d = true →
      (e.setText qDateTimeCodec (some d)).bind
        (fun e2 => e2.getText qDateTimeCodec true dflt) = .ok (some d)) := by
  refine ⟨fun b dflt => ?_, fun i dflt hi1 hi2 => ?_, fun d dflt hd => ?_⟩
  · rw [setText_ok boolCodec e b he]
    show (e.withText (boolCodec.objectToString b)).getText boolCodec true dflt = .ok b
    exact getText_ok boolCodec _ true dflt b (by simp [he])
      (by rw [DomElement.withText_mText]; exact boolCodec_roundtrip b true dflt)
  · rw [setText_ok intCodec e i he]
    show (e.withText (intCodec.objectToString i)).getText intCodec true dflt = .ok i
    exact getText_ok intCodec _ true dflt i (by simp [he])
      (by rw [DomElement.withText_mText]
          exact stringToObjectInt_some _ i true dflt (qStringToInt_qStringNumber i hi1 hi2))
  · rw [setText_ok qDateTimeCodec e (some d) he]
    show (e.withText (qDateTimeCodec.objectToString (some d))).getText qDateTimeCodec true dflt
        = .ok (some d)
    exact getText_ok qDateTimeCodec _ true dflt (some d) (by simp [he])
      (by rw [DomElement.withText_mText]; exact qDateTimeCodec_roundtrip d true dflt hd)

/-- Claim C4 witness: concrete round trips for true, -5 and an ISO
datetime on a fresh childless element. -/
theorem claim4_witness :
    ((DomElement.mk "n" "" [] []).setText boolCodec true).bind
      (fun e2 => e2.getText boolCodec true false) = .ok true ∧
    ((DomElement.mk "n" "" [] []).setText intCodec (-5)).bind
      (fun e2 => e2.getText intCodec true 0) = .ok (-5) ∧
    ((DomElement.mk "n" "" [] []).setText qDateTimeCodec
        (some ⟨2013, 4, 15, 9, 30, 0⟩)).bind
      (fun e2 => e2.getText qDateTimeCodec true none) = .ok (some ⟨2013, 4, 15, 9, 30, 0⟩) :=
  ⟨(claim4_text_roundtrip (DomElement.mk "n" "" [] []) rfl).1 true false,
   (claim4_text_roundtrip (DomElement.mk "n" "" [] []) rfl).2.1 (-5) 0 (by decide) (by decide),
   (claim4_text_roundtrip (DomElement.mk "n" "" [] []) rfl).2.2 ⟨2013, 4, 15, 9, 30, 0⟩ none
     (by decide)⟩

/-- Claim C9: for every ComponentSignal with non-null uuid and nonempty
name and every fresh childless DomElement, serialize followed by the
DomElement-reading constructor yields a signal equal to the original under
operator== (all seven fields compare equal). -/
theorem claim9_serialize_roundtrip (s : ComponentSignal) (e : DomElement)
    (h1 : s.mUuid.isNull = false) (h2 : s.mName ≠ "")
    (h3 : e.mChilds = []) (h4 : e.mAttributes = []) :
    ∃ e2 s2, s.serialize e = .ok e2 ∧ ComponentSignal.fromDomElement e2 = .ok s2 ∧
      ComponentSignal.eq s2 s = true := by
  obtain ⟨su, sn, sr, sf, sq, sg, sc⟩ := s
  obtain ⟨n, t, cs, a⟩ := e
  simp only [DomElement.mChilds_mk] at h3
  simp only [DomElement.mAttributes_mk] at h4
  subst h3
  subst h4
  have h1a : su.isNull = false := h1
  have h2a : sn ≠ "" := h2
  have hval : ComponentSignal.checkAttributesValidity ⟨su, sn, sr, sf, sq, sg, sc⟩ = true := by
    simp [ComponentSignal.checkAttributesValidity, h1a, String.isEmpty_false_of_ne sn h2a]
  refine ⟨_, _, serialize_fresh n t su sn sr sf sq sg sc hval,
    fromDomElement_serialized n su sn sr sf sq sg sc h1a h2a, ?_⟩
  simp [ComponentSignal.eq]

/-- Claim C9 witness: a concrete signal round-trips through a fresh
element named signal. -/
theorem claim9_witness :
    (ComponentSignal.mk ⟨"u1"⟩ "SIG" .input "" true false true).mUuid.isNull = false ∧
    ("SIG" : String) ≠ "" ∧
    ∃ e2 s2,
      (ComponentSignal.mk ⟨"u1"⟩ "SIG" .input "" true false true).serialize
          (DomElement.new "signal") = .ok e2 ∧
      ComponentSignal.fromDomElement e2 = .ok s2 ∧
      ComponentSignal.eq s2 (ComponentSignal.mk ⟨"u1"⟩ "SIG" .input "" true false true)
        = true :=
  ⟨by decide, by decide,
   claim9_serialize_roundtrip (ComponentSignal.mk ⟨"u1"⟩ "SIG" .input "" true false true)
     (DomElement.new "signal") (by decide) (by decide) rfl rfl⟩

end LibrePCB
